import Mathlib

/-!
Shallow embedding of the motion-control firmware of the jetbot-dashboard
repository, and proofs about it.

Four Arduino sketches are modelled, each in its own namespace:

* `Ultimate`  - the "Ultimate Mecanum Robot Controller with MPU6050 IMU"
  sketch (complementary filter, balancing / heading PIDs, tip-over check,
  serial command parser, motor mixing).
* `Extended`  - the "mecanum-controller-extended" sketch (bare
  `s1,s2,s3,s4` speed-command parser and per-motor actuation).
* `LineAdv`   - the "mecanum-line-follower-advanced" sketch (line-position
  computation with polarity auto-detect and uniform-surface detection,
  line-tracking PID).
* `JetImu`    - the "jetbot_imu" drift-correction sketch (yaw integration
  with dead-band and its PID with anti-windup clamp and dt floor).

Modelling conventions:
* C `float`/`double` values are embedded as `ℚ`.  Division on `ℚ` is total
  with `x / 0 = 0`; every place where the C code can divide by zero is
  noted at the definition.
* C integer truncation (`float` to `int`) is `cTrunc` (round toward zero).
  Conversion of an out-of-range float to a C integer type is undefined
  behaviour in C; the model keeps the mathematical truncation.
* `digitalWrite(dirPin, HIGH/LOW)` is a `Bool` (`true` = HIGH) and
  `analogWrite(pwmPin, v)` a `ℕ` magnitude, per wheel channel.
* `Serial.println` status output is not modelled except that emissions of
  the error messages of the "Ultimate" sketch are counted in `errorCount`.
* The transcendental accelerometer tilt `atan2(ax, sqrt(ay*ay+az*az))
  * 180 / PI` is taken as an input value (`ImuSample.pitchAcc`) rather
  than recomputed; everything downstream of it is modelled exactly.
-/

/-- Arduino `constrain(x, lo, hi)`: `x < lo ? lo : (x > hi ? hi : x)`,
on integer values. -/
def clampZ (x lo hi : ℤ) : ℤ :=
  if x < lo then lo else if x > hi then hi else x

/-- Arduino `constrain(x, lo, hi)` on floating-point values (model: `ℚ`). -/
def clampQ (x lo hi : ℚ) : ℚ :=
  if x < lo then lo else if x > hi then hi else x

/-- C conversion of a floating-point value to an integer type: truncation
toward zero.  (Out-of-range conversions are undefined behaviour in C; the
model keeps the mathematical truncation.) -/
def cTrunc (q : ℚ) : ℤ :=
  if q < 0 then ⌈q⌉ else ⌊q⌋

/-- Value of a list of decimal digit characters, most significant first. -/
def digitsVal (cs : List Char) : ℕ :=
  cs.foldl (fun a c => a * 10 + (c.toNat - 48)) 0

/-- C `atoi`: skip leading whitespace, optional sign, then the longest
digit run; no digits yields 0; trailing junk is ignored.  (Overflow of the
C `int` range is not modelled; no claim exercises it.) -/
def atoiZ (s : List Char) : ℤ :=
  let t := s.dropWhile Char.isWhitespace
  match t with
  | '-' :: r => -(digitsVal (r.takeWhile Char.isDigit) : ℤ)
  | '+' :: r => (digitsVal (r.takeWhile Char.isDigit) : ℤ)
  | r => (digitsVal (r.takeWhile Char.isDigit) : ℤ)

/-- C `strtol` combined with the `endptr != token && *endptr == 0` check
used by the extended controller: the token must consist of optional
whitespace, an optional sign and at least one digit, with nothing after
the digits. -/
def strtolAll (s : List Char) : Option ℤ :=
  let t := s.dropWhile Char.isWhitespace
  let signed : ℤ × List Char :=
    match t with
    | '-' :: r => (-1, r)
    | '+' :: r => (1, r)
    | r => (1, r)
  let ds := signed.2.takeWhile Char.isDigit
  let tail := signed.2.dropWhile Char.isDigit
  if ds.isEmpty || !tail.isEmpty then none
  else some (signed.1 * (digitsVal ds : ℤ))

/-- C `atof` as used for the `HEADING` argument: optional whitespace and
sign, integer digits, optional fraction after a decimal point.  (Exponent
notation is accepted by the C library but unused by any claim and not
modelled.) -/
def atofQ (s : List Char) : ℚ :=
  let t := s.dropWhile Char.isWhitespace
  let signed : ℚ × List Char :=
    match t with
    | '-' :: r => (-1, r)
    | '+' :: r => (1, r)
    | r => (1, r)
  let ip := signed.2.takeWhile Char.isDigit
  let rest := signed.2.dropWhile Char.isDigit
  let fp :=
    match rest with
    | '.' :: r => r.takeWhile Char.isDigit
    | _ => []
  signed.1 * ((digitsVal ip : ℚ) + (digitsVal fp : ℚ) / (10 : ℚ) ^ fp.length)

/-- One token run of C `strtok(buf, ",")`: maximal nonempty runs of
non-comma characters (consecutive and leading commas produce no token). -/
def splitTok (s : List Char) : List (List Char) :=
  (s.splitOn ',').filter (fun t => !t.isEmpty)

/-- C `strcasecmp(a, b) == 0`: case-insensitive string equality. -/
def lowerEq (a b : List Char) : Bool :=
  a.map Char.toLower == b.map Char.toLower

/-- One motor channel as driven by the hardware pins: direction pin level
(`true` = HIGH) and PWM magnitude. -/
structure Channel where
  dir : Bool
  pwm : ℕ
deriving DecidableEq

/-- The four wheel channels, front-left / front-right / rear-left /
rear-right. -/
structure Channels where
  fl : Channel
  fr : Channel
  rl : Channel
  rr : Channel
deriving DecidableEq

/-- Signed wheel command encoded by a channel: the PWM magnitude with the
sign given by the direction pin (HIGH = forward). -/
def signedValue (c : Channel) : ℤ :=
  if c.dir then (c.pwm : ℤ) else -(c.pwm : ℤ)

/-- All four channels as left by `initializeMotors` / `setupMotorPins`:
direction LOW, magnitude 0. -/
def chanZero : Channels :=
  ⟨⟨false, 0⟩, ⟨false, 0⟩, ⟨false, 0⟩, ⟨false, 0⟩⟩

namespace Ultimate

/-- Raw sensor values consumed by one `loop` iteration of the Ultimate
controller.  `pitchAcc` is the accelerometer tilt
`atan2(ax, sqrt(ay*ay+az*az)) * 180 / PI` (the transcendental call taken
as an input value); `gx`, `gz` are the raw gyro words used for pitch rate
and yaw rate; `axRaw`, `ayRaw` are the raw acceleration words re-read by
`updateOdometry`. -/
structure ImuSample where
  pitchAcc : ℚ
  gx : ℤ
  gz : ℤ
  axRaw : ℤ
  ayRaw : ℤ
deriving DecidableEq

/-- The four base motor speeds set by the serial `MOVE` command
(`baseSpeeds[0..3]`, FL FR RL RR). -/
structure BaseSpeeds where
  s0 : ℤ
  s1 : ℤ
  s2 : ℤ
  s3 : ℤ
deriving DecidableEq

/-- Global mutable state of the Ultimate controller sketch.  The globals
`balance_error`, `balance_derivative`, `heading_error` and
`heading_derivative` are recomputed before every use and are therefore
kept local to the PID functions; `sendStatus` output is modelled only by
`errorCount`, which counts the two error messages
(invalid command format, command buffer overflow). -/
structure S where
  pitchAcc : ℚ
  pitchGyro : ℚ
  pitch : ℚ
  yaw : ℚ
  lastPitchError : ℚ
  balanceIntegral : ℚ
  balanceCorrection : ℚ
  targetHeading : ℚ
  headingIntegral : ℚ
  headingCorrection : ℚ
  odomX : ℚ
  odomY : ℚ
  velX : ℚ
  velY : ℚ
  balancingEnabled : Bool
  headingControlEnabled : Bool
  baseSpeeds : BaseSpeeds
  motors : Channels
  cmdBuffer : List Char
  errorCount : ℕ
deriving DecidableEq

/-- Boot state: motors stopped (direction LOW, PWM 0), all estimates zero,
both control modes disabled, empty command buffer. -/
def initState : S where
  pitchAcc := 0
  pitchGyro := 0
  pitch := 0
  yaw := 0
  lastPitchError := 0
  balanceIntegral := 0
  balanceCorrection := 0
  targetHeading := 0
  headingIntegral := 0
  headingCorrection := 0
  odomX := 0
  odomY := 0
  velX := 0
  velY := 0
  balancingEnabled := false
  headingControlEnabled := false
  baseSpeeds := ⟨0, 0, 0, 0⟩
  motors := chanZero
  cmdBuffer := []
  errorCount := 0

/-- `setMotor(index, speed)`: out-of-range index is a no-op; otherwise the
speed is constrained to [-255, 255], the direction pin gets
`speed >= 0 ? HIGH : LOW` and the PWM pin `abs(speed)`. -/
def setMotor (m : Channels) (index : ℕ) (speed : ℤ) : Channels :=
  if index ≥ 4 then m
  else
    let sp := clampZ speed (-255) 255
    let ch : Channel := ⟨decide (0 ≤ sp), sp.natAbs⟩
    if index = 0 then { m with fl := ch }
    else if index = 1 then { m with fr := ch }
    else if index = 2 then { m with rl := ch }
    else { m with rr := ch }

/-- `setAllMotors(speeds)`: apply `setMotor` to the four wheels in index
order. -/
def setAllMotors (m : Channels) (f0 f1 f2 f3 : ℤ) : Channels :=
  setMotor (setMotor (setMotor (setMotor m 0 f0) 1 f1) 2 f2) 3 f3

/-- `stopMotors()`: write speed 0 to all four wheels. -/
def stopMotors (m : Channels) : Channels :=
  setAllMotors m 0 0 0 0

/-- Yaw integration step inside `updateIMU`: `yaw += (gz / 131.0) * dt_imu`
with the fixed `dt_imu = 0.01`, then the two wrap conditionals
`if (yaw > 180) yaw -= 360; if (yaw < -180) yaw += 360;`. -/
def yawStep (yaw : ℚ) (gz : ℤ) : ℚ :=
  let yawRate : ℚ := (gz : ℚ) / 131
  let y1 := yaw + yawRate * (1 / 100)
  let y2 := if y1 > 180 then y1 - 360 else y1
  if y2 < -180 then y2 + 360 else y2

/-- `updateIMU()`: accelerometer pitch, gyro-integrated pitch with the
fixed `dt_imu = 0.01`, complementary filter with `ALPHA = 0.98`, and yaw
integration with wrap. -/
def updateIMU (st : S) (imu : ImuSample) : S :=
  let pAcc := imu.pitchAcc
  let gyroRate : ℚ := (imu.gx : ℚ) / 131
  let pGyro := st.pitch + gyroRate * (1 / 100)
  let p := (98 / 100) * pGyro + (1 - 98 / 100) * pAcc
  { st with pitchAcc := pAcc, pitchGyro := pGyro, pitch := p,
            yaw := yawStep st.yaw imu.gz }

/-- `computeBalancingPID(dt)`: gains Kp = 20, Ki = 0.5, Kd = 0.1; the
integral is accumulated with no clamp, and the derivative divides by the
measured `dt` with no floor (at `dt = 0` the C code divides by zero; the
`ℚ` model yields 0 there). -/
def computeBalancingPID (st : S) (dt : ℚ) : S :=
  let e := 0 - st.pitch
  let integ := st.balanceIntegral + e * dt
  let deriv := (e - st.lastPitchError) / dt
  let corr := 20 * e + (1 / 2) * integ + (1 / 10) * deriv
  { st with balanceIntegral := integ, balanceCorrection := corr,
            lastPitchError := e }

/-- `computeHeadingPID(dt)`: gains Kp = 2, Ki = 0.1, Kd = 0.05; the
"simple derivative" is `error / dt` (no last-error state), again with no
floor on `dt`. -/
def computeHeadingPID (st : S) (dt : ℚ) : S :=
  let e := st.targetHeading - st.yaw
  let integ := st.headingIntegral + e * dt
  let deriv := e / dt
  let corr := 2 * e + (1 / 10) * integ + (1 / 20) * deriv
  { st with headingIntegral := integ, headingCorrection := corr }

/-- `updateOdometry(dt)`: double integration of the raw accelerations
(scale 16384 LSB/g, g = 9.81). -/
def updateOdometry (st : S) (imu : ImuSample) (dt : ℚ) : S :=
  let axMs := (imu.axRaw : ℚ) / 16384 * (981 / 100)
  let ayMs := (imu.ayRaw : ℚ) / 16384 * (981 / 100)
  let vX := st.velX + axMs * dt
  let vY := st.velY + ayMs * dt
  { st with velX := vX, velY := vY,
            odomX := st.odomX + vX * dt, odomY := st.odomY + vY * dt }

/-- The `MOVE` argument loop of `parseCommand`: four `strtok` calls, each
missing token aborts with failure, each present token is converted with
`atoi` and written into `baseSpeeds[i]` immediately (so a failing line can
leave the array partially updated); a fifth and later token is never
looked at. -/
def parseMove (bs : BaseSpeeds) (toks : List (List Char)) : Bool × BaseSpeeds :=
  match toks with
  | [] => (false, bs)
  | t0 :: r0 =>
    let b0 := { bs with s0 := atoiZ t0 }
    match r0 with
    | [] => (false, b0)
    | t1 :: r1 =>
      let b1 := { b0 with s1 := atoiZ t1 }
      match r1 with
      | [] => (false, b1)
      | t2 :: r2 =>
        let b2 := { b1 with s2 := atoiZ t2 }
        match r2 with
        | [] => (false, b2)
        | t3 :: _ => (true, { b2 with s3 := atoiZ t3 })

/-- `parseCommand(cmd)`: tokenize on commas, dispatch case-insensitively
on the first token (`MOVE`, `BALANCE`, `HEADING`, `STOP`), return whether
the command was accepted together with the updated state.  The local
`strncpy` into a 64-byte buffer cannot truncate because the caller's line
is at most 63 bytes. -/
def parseCommand (st : S) (cmd : List Char) : Bool × S :=
  match splitTok cmd with
  | [] => (false, st)
  | tok :: rest =>
    if lowerEq tok (("MOVE").toList) then
      let r := parseMove st.baseSpeeds rest
      (r.1, { st with baseSpeeds := r.2 })
    else if lowerEq tok (("BALANCE").toList) then
      match rest with
      | [] => (false, st)
      | arg :: _ =>
        if lowerEq arg (("ON").toList) then
          (true, { st with balancingEnabled := true })
        else if lowerEq arg (("OFF").toList) then
          (true, { st with balancingEnabled := false })
        else (false, st)
    else if lowerEq tok (("HEADING").toList) then
      match rest with
      | [] => (false, st)
      | arg :: _ =>
        (true, { st with targetHeading := atofQ arg,
                         headingControlEnabled := true })
    else if lowerEq tok (("STOP").toList) then
      (true, { st with motors := stopMotors st.motors,
                       balancingEnabled := false,
                       headingControlEnabled := false })
    else (false, st)

/-- One character of `processSerialCommands()`: a terminator dispatches a
nonempty buffer to `parseCommand` (counting an error if it is rejected)
and clears the buffer; otherwise the character is appended while
`cmdIndex < CMD_BUFFER_SIZE - 1 = 63`, and on overflow the error is
counted and the buffer index reset to 0 (the overflowing character is
dropped). -/
def procChar (st : S) (c : Char) : S :=
  if c = '\n' ∨ c = '\r' then
    if st.cmdBuffer.isEmpty then st
    else
      let r := parseCommand st st.cmdBuffer
      let st1 := if r.1 then r.2 else { r.2 with errorCount := r.2.errorCount + 1 }
      { st1 with cmdBuffer := [] }
  else if st.cmdBuffer.length < 63 then
    { st with cmdBuffer := st.cmdBuffer ++ [c] }
  else
    { st with errorCount := st.errorCount + 1, cmdBuffer := [] }

/-- `processSerialCommands()`: drain the available input bytes through
`procChar`, keeping the partial buffer across cycles. -/
def processSerialCommands (st : S) (input : List Char) : S :=
  input.foldl procChar st

/-- The mixing and actuation tail of `loop()` (lines computing
`finalSpeeds[0..3]` followed by `setAllMotors`): each wheel mixes its own
base speed with the balance correction (front minus, rear plus) and the
heading correction (left plus, right minus); the float result is stored
into an `int16_t` (truncation toward zero), and `setMotor` then clamps
each wheel independently to [-255, 255]. -/
def mixAndActuate (st : S) : S :=
  let f0 := cTrunc ((st.baseSpeeds.s0 : ℚ) - st.balanceCorrection + st.headingCorrection)
  let f1 := cTrunc ((st.baseSpeeds.s1 : ℚ) - st.balanceCorrection - st.headingCorrection)
  let f2 := cTrunc ((st.baseSpeeds.s2 : ℚ) + st.balanceCorrection + st.headingCorrection)
  let f3 := cTrunc ((st.baseSpeeds.s3 : ℚ) + st.balanceCorrection - st.headingCorrection)
  { st with motors := setAllMotors st.motors f0 f1 f2 f3 }

/-- The part of `loop()` after the balancing block: heading PID (or zero
correction), odometry, serial command processing, then mixing and
actuation. -/
def loopTail (st : S) (dt : ℚ) (imu : ImuSample) (input : List Char) : S :=
  let st1 := if st.headingControlEnabled then computeHeadingPID st dt
             else { st with headingCorrection := 0 }
  let st2 := updateOdometry st1 imu dt
  let st3 := processSerialCommands st2 input
  mixAndActuate st3

/-- One iteration of `loop()`: compute `dt` from the millisecond clock,
update the IMU estimates, then - only if balancing is enabled - run the
balance PID and the tip-over check (`abs(pitch) > 30`), which stops the
motors and returns early; otherwise zero the balance correction and run
the rest of the cycle. -/
def loopStep (st : S) (dtMs : ℕ) (imu : ImuSample) (input : List Char) : S :=
  let dt : ℚ := (dtMs : ℚ) / 1000
  let st1 := updateIMU st imu
  if st1.balancingEnabled then
    let st2 := computeBalancingPID st1 dt
    if 30 < |st2.pitch| then { st2 with motors := stopMotors st2.motors }
    else loopTail st2 dt imu input
  else loopTail { st1 with balanceCorrection := 0 } dt imu input

end Ultimate

namespace Extended

/-- `setMotorSpeed(index, speed)` of the extended controller: negative or
too-large index is a no-op; otherwise `reverse = speed < 0`,
`absSpeed = constrain(abs(speed), 0, PWM_MAX)`, direction pin
`reverse ? LOW : HIGH`, PWM pin `absSpeed`. -/
def setMotorSpeed (m : Channels) (index : ℤ) (speed : ℤ) : Channels :=
  if index < 0 ∨ index ≥ 4 then m
  else
    let absSpeed := clampZ |speed| 0 255
    let ch : Channel := ⟨decide (¬ speed < 0), absSpeed.toNat⟩
    if index = 0 then { m with fl := ch }
    else if index = 1 then { m with fr := ch }
    else if index = 2 then { m with rl := ch }
    else { m with rr := ch }

/-- `parseSpeedCommand(command, speeds)`: tokenize on commas, convert with
`strtol` checking that each token is consumed entirely, stop after four
tokens, succeed exactly when four tokens were converted.  A fifth and
later token is never examined.  (The C version writes converted values
into the caller's array even on a later failure, but the caller only
reads them on success, so the `Option` result captures the observable
behaviour.) -/
def parseSpeedCommand (cmd : List Char) : Option (ℤ × ℤ × ℤ × ℤ) :=
  match (splitTok cmd).take 4 with
  | [t0, t1, t2, t3] =>
    match strtolAll t0, strtolAll t1, strtolAll t2, strtolAll t3 with
    | some a, some b, some c, some d => some (a, b, c, d)
    | _, _, _, _ => none
  | _ => none

/-- The speed branch of `handleCommand` (taken when the line does not
start with `TEST,`): on parse success apply the four speeds with
`setMotorSpeed`; on failure leave the motors untouched and report an
error (the `Bool` is `true` for success).  The `TEST` branch is not
modelled; no claim depends on it. -/
def handleSpeedCommand (m : Channels) (cmd : List Char) : Channels × Bool :=
  match parseSpeedCommand cmd with
  | some (a, b, c, d) =>
    (setMotorSpeed (setMotorSpeed (setMotorSpeed (setMotorSpeed m 0 a) 1 b) 2 c) 3 d, true)
  | none => (m, false)

end Extended

namespace LineAdv

/-- Polarity-adjusted sensor triple of `calculatePosition`: the average of
the raw readings chooses `lineIsDarker` (below the midpoint 512), and a
darker line inverts every channel as `1023 - value`, so that higher
always means on-line.  (The C averaging divides `int`s, truncating toward
zero.) -/
def adjusted (left center right : ℤ) : ℤ × ℤ × ℤ :=
  let avgValue := Int.tdiv (left + center + right) 3
  let lineIsDarker := avgValue < 512
  (if lineIsDarker then 1023 - left else left,
   if lineIsDarker then 1023 - center else center,
   if lineIsDarker then 1023 - right else right)

/-- `calculatePosition(left, center, right)` of the advanced line
follower: on a uniform surface (adjusted `max - min` below
`UNIFORM_THRESHOLD = 100`) return the center `SET_POINT = 500`;
otherwise the weighted centroid with weights 0 / 500 / 1000 (or the
setpoint if the adjusted values sum to zero). -/
def calculatePosition (left center right : ℤ) : ℚ :=
  let adj := adjusted left center right
  let minVal := min adj.1 (min adj.2.1 adj.2.2)
  let maxVal := max adj.1 (max adj.2.1 adj.2.2)
  if maxVal - minVal < 100 then 500
  else
    let weightedSum := adj.1 * 0 + adj.2.1 * 500 + adj.2.2 * 1000
    let sumValues := adj.1 + adj.2.1 + adj.2.2
    if sumValues ≠ 0 then (weightedSum : ℚ) / (sumValues : ℚ) else 500

/-- Persistent state of the line-follower PID (`previousError`,
`integral`). -/
structure PidState where
  previousError : ℚ
  integral : ℚ
deriving DecidableEq

/-- `computePID(position, correction)` of the advanced line follower:
gains Kp = 1.0, Ki = 0.0, Kd = 0.5 about `SET_POINT = 500`; the integral
accumulates the raw error (no `dt` factor) and is clamped to
`INTEGRAL_LIMIT = 100`; the derivative is `error - previousError` with no
division by `dt`. -/
def computePID (ps : PidState) (position : ℚ) : ℚ × PidState :=
  let error := 500 - position
  let integ := clampQ (ps.integral + error) (-100) 100
  let derivative := error - ps.previousError
  let correction := 1 * error + 0 * integ + (1 / 2) * derivative
  (correction, ⟨error, integ⟩)


/-- The serial-command state of the advanced line follower: the
`direction` flag (1 forward, -1 backward, 0 stop) and the incremental
command buffer.  The sketch prints replies over serial but keeps no
error counter - and, notably, its byte loop has no overflow branch at
all. -/
structure CmdState where
  direction : ℤ
  cmdBuffer : List Char
deriving DecidableEq

/-- `handleCommand(command)` of the advanced line follower: the
case-sensitive words `forward`, `backward` and `stop` set `direction`;
anything else only prints an unknown-command reply and changes
nothing. -/
def handleCommand (st : CmdState) (command : List Char) : CmdState :=
  if command = ("forward").toList then { st with direction := 1 }
  else if command = ("backward").toList then { st with direction := -1 }
  else if command = ("stop").toList then { st with direction := 0 }
  else st

/-- One character of `processSerialInput()` of the advanced line
follower: a terminator dispatches a nonempty buffer to `handleCommand`
and clears the buffer; otherwise the character is appended only while
`cmdIndex < CMD_BUFFER_SIZE - 1 = 63`.  Unlike the Ultimate controller,
there is no overflow branch: once the buffer is full, further bytes of
the line are silently dropped - no error is reported and the buffer
keeps the 63-byte prefix of the overlong line. -/
def inputChar (st : CmdState) (c : Char) : CmdState :=
  if c = '\n' ∨ c = '\r' then
    if st.cmdBuffer.isEmpty then st
    else { handleCommand st st.cmdBuffer with cmdBuffer := [] }
  else if st.cmdBuffer.length < 63 then
    { st with cmdBuffer := st.cmdBuffer ++ [c] }
  else st

/-- `processSerialInput()` of the advanced line follower: drain the
available input bytes through `inputChar`, keeping the partial buffer
across cycles. -/
def processSerialInput (st : CmdState) (input : List Char) : CmdState :=
  input.foldl inputChar st

end LineAdv

namespace JetImu

/-- The `PIDController` struct of the jetbot_imu sketch. -/
structure PIDController where
  kp : ℚ
  ki : ℚ
  kd : ℚ
  setpoint : ℚ
  integral : ℚ
  lastError : ℚ
  maxIntegral : ℚ
deriving DecidableEq

/-- The dt floor inside `calculatePIDCorrection`:
`if (deltaTime < 0.001f) deltaTime = 0.001f;`. -/
def effDt (dt : ℚ) : ℚ :=
  if dt < 1 / 1000 then 1 / 1000 else dt

/-- `calculatePIDCorrection(currentValue)` of the jetbot_imu sketch, with
the measured `deltaTime` (seconds) taken as the parameter `dtRaw`: floor
the dt at 1 ms, accumulate `error * deltaTime` into the integral and
clamp it to `maxIntegral` before use, divide the derivative by the
floored dt, update `lastError`, and constrain the output to
`MAX_CORRECTION = 50`.  Returns the correction and the updated
controller. -/
def calculatePIDCorrection (pc : PIDController) (currentValue : ℚ) (dtRaw : ℚ) :
    ℚ × PIDController :=
  let error := pc.setpoint - currentValue
  let deltaTime := effDt dtRaw
  let integ := clampQ (pc.integral + error * deltaTime) (-pc.maxIntegral) pc.maxIntegral
  let derivative := (error - pc.lastError) / deltaTime
  let correction := pc.kp * error + pc.ki * integ + pc.kd * derivative
  (clampQ correction (-50) 50,
   { pc with integral := integ, lastError := error })

/-- One motor of the jetbot_imu sketch: pins plus the stored `speed`
field. -/
structure JMotor where
  dir : Bool
  pwm : ℕ
  speed : ℤ
deriving DecidableEq

/-- The four jetbot_imu motors. -/
structure JMotors where
  m0 : JMotor
  m1 : JMotor
  m2 : JMotor
  m3 : JMotor
deriving DecidableEq

/-- Motors as left by `initializeMotors` of the jetbot_imu sketch. -/
def jmZero : JMotors :=
  ⟨⟨false, 0, 0⟩, ⟨false, 0, 0⟩, ⟨false, 0, 0⟩, ⟨false, 0, 0⟩⟩

/-- `setMotorSpeed(index, speed)` of the jetbot_imu sketch: out-of-range
index is a no-op; otherwise the speed is constrained to [-255, 255] and
stored, the direction pin gets `speed >= 0 ? HIGH : LOW` and the PWM pin
`abs(speed)`. -/
def setMotorSpeed (ms : JMotors) (index : ℕ) (speed : ℤ) : JMotors :=
  if index ≥ 4 then ms
  else
    let sp := clampZ speed (-255) 255
    let mm : JMotor := ⟨decide (0 ≤ sp), sp.natAbs, sp⟩
    if index = 0 then { ms with m0 := mm }
    else if index = 1 then { ms with m1 := mm }
    else if index = 2 then { ms with m2 := mm }
    else { ms with m3 := mm }

end JetImu

/-- PID correction step exactly as the specification words it:
`correction = kp * error + ki * clamp(integral accumulated with
error * dt) + kd * (error - lastError) / dt`, with the integral clamped
to the configured bound before use.  Written from the spec text, to be
compared against the PID implementations above. -/
def specPidCorrection (kp ki kd imax integ lastErr err dt : ℚ) : ℚ :=
  kp * err + ki * clampQ (integ + err * dt) (-imax) imax
    + kd * ((err - lastErr) / dt)

/-- State with nonzero base speeds stored, used to examine `STOP`. -/
def stC2 : Ultimate.S :=
  { Ultimate.initState with baseSpeeds := ⟨100, 100, 100, 100⟩ }

/-- State with known prior base speeds, used to examine a malformed
`MOVE` line. -/
def stC3 : Ultimate.S :=
  { Ultimate.initState with baseSpeeds := ⟨7, 7, 7, 7⟩ }

/-- State with a nonzero filtered tilt, used to examine the balance PID
at `dt = 0`. -/
def stC9 : Ultimate.S :=
  { Ultimate.initState with pitch := 1 }

/-- IMU sample whose accelerometer tilt is 50 degrees, with all gyro and
acceleration words zero, so the complementary filter reproduces a tilt of
50 degrees. -/
def imuC1 : Ultimate.ImuSample := ⟨50, 0, 0, 0, 0⟩

/-- State tilted far past the tip-over threshold with balancing disabled
and nonzero base speeds. -/
def stC1a : Ultimate.S :=
  { Ultimate.initState with pitch := 50, baseSpeeds := ⟨100, 100, 100, 100⟩ }

/-- State tilted far past the tip-over threshold with both control modes
enabled. -/
def stC1b : Ultimate.S :=
  { Ultimate.initState with pitch := 50, balancingEnabled := true,
                            headingControlEnabled := true }

/-- State with balancing enabled, used to watch what an overlong serial
line does. -/
def stC8 : Ultimate.S :=
  { Ultimate.initState with balancingEnabled := true }

/-- An overlong serial line: 64 filler bytes overflow the 63-byte command
buffer, and the tail `STOP` of the same line is followed by the line
terminator. -/
def inputC8 : List Char :=
  List.replicate 64 'X' ++ ("STOP").toList ++ ['\n']

/-- Boot serial state of the advanced line follower: stopped, empty
command buffer. -/
def lineBoot : LineAdv.CmdState := ⟨0, []⟩

/-- Helper for C5: a channel written by `setMotor`-style actuation
(direction `0 <= s`, magnitude `abs s`) encodes exactly the signed value
`s`. -/
theorem signedValue_mk (x : ℤ) :
    signedValue ⟨decide (0 ≤ x), x.natAbs⟩ = x := by
  simp only [signedValue, decide_eq_true_eq]
  split_ifs with h <;> omega

/-- Claim C7: whenever the three polarity-adjusted line-sensor readings
have max minus min below the uniform-surface threshold 100 - in
particular whenever all three adjusted readings are equal - the reported
line position equals the center setpoint 500, not a computed centroid. -/
theorem C7_confirmed (left center right : ℤ)
    (h : max (LineAdv.adjusted left center right).1
          (max (LineAdv.adjusted left center right).2.1 (LineAdv.adjusted left center right).2.2)
        - min (LineAdv.adjusted left center right).1
          (min (LineAdv.adjusted left center right).2.1 (LineAdv.adjusted left center right).2.2)
        < 100) :
    LineAdv.calculatePosition left center right = 500 := by
  simp only [LineAdv.calculatePosition]
  rw [if_pos h]

/-- Witness for C7 at three equal raw readings 300, 300, 300 (adjusted to
723 each, spread 0 below the threshold). -/
theorem C7_witness : LineAdv.calculatePosition 300 300 300 = 500 :=
  C7_confirmed 300 300 300 (by decide)

/-- Claim C10: setting a single motor with an out-of-range index (at
least 4, or negative where the index is signed) is a no-op in all three
sketches that have the guard: no direction signal, magnitude signal, or
stored motor state changes. -/
theorem C10_confirmed :
    (∀ (m : Channels) (index : ℕ) (speed : ℤ), 4 ≤ index →
       Ultimate.setMotor m index speed = m) ∧
    (∀ (m : Channels) (index speed : ℤ), index < 0 ∨ 4 ≤ index →
       Extended.setMotorSpeed m index speed = m) ∧
    (∀ (ms : JetImu.JMotors) (index : ℕ) (speed : ℤ), 4 ≤ index →
       JetImu.setMotorSpeed ms index speed = ms) := by
  refine ⟨fun m index speed h => ?_, fun m index speed h => ?_,
    fun ms index speed h => ?_⟩
  · unfold Ultimate.setMotor
    rw [if_pos h]
  · unfold Extended.setMotorSpeed
    rw [if_pos (by omega : index < 0 ∨ index ≥ 4)]
  · unfold JetImu.setMotorSpeed
    rw [if_pos h]

/-- Witness for C10: index 5 (and index -1 for the signed variant) at
speed 100 leaves the boot motor state untouched in each sketch. -/
theorem C10_witness :
    Ultimate.setMotor chanZero 5 100 = chanZero ∧
    Extended.setMotorSpeed chanZero (-1) 100 = chanZero ∧
    JetImu.setMotorSpeed jmZero 4 100 = jmZero :=
  ⟨C10_confirmed.1 chanZero 5 100 (by omega),
   C10_confirmed.2.1 chanZero (-1) 100 (Or.inl (by omega)),
   C10_confirmed.2.2 jmZero 4 100 (by omega)⟩

/-- Claim C5: in the mixing and actuation step of the cycle, the four
final wheel commands equal FL = base0 - balance + heading,
FR = base1 - balance - heading, RL = base2 + balance + heading,
RR = base3 + balance - heading (truncated to the integer command type),
and clamping to [-255, 255] is the last step, applied independently per
wheel - each wheel's output depends only on its own base speed and the
two shared corrections, with no global rescaling. -/
theorem C5_confirmed (st : Ultimate.S) :
    signedValue (Ultimate.mixAndActuate st).motors.fl
      = clampZ (cTrunc ((st.baseSpeeds.s0 : ℚ) - st.balanceCorrection + st.headingCorrection)) (-255) 255 ∧
    signedValue (Ultimate.mixAndActuate st).motors.fr
      = clampZ (cTrunc ((st.baseSpeeds.s1 : ℚ) - st.balanceCorrection - st.headingCorrection)) (-255) 255 ∧
    signedValue (Ultimate.mixAndActuate st).motors.rl
      = clampZ (cTrunc ((st.baseSpeeds.s2 : ℚ) + st.balanceCorrection + st.headingCorrection)) (-255) 255 ∧
    signedValue (Ultimate.mixAndActuate st).motors.rr
      = clampZ (cTrunc ((st.baseSpeeds.s3 : ℚ) + st.balanceCorrection - st.headingCorrection)) (-255) 255 := by
  refine ⟨?_, ?_, ?_, ?_⟩ <;>
    simp only [Ultimate.mixAndActuate, Ultimate.setAllMotors, Ultimate.setMotor] <;>
    norm_num <;>
    exact signedValue_mk _

/-- Claim C2, counterexample: processing `STOP` from a state with stored
base speeds 100,100,100,100 is accepted but leaves the stored base
speeds at 100,100,100,100 - they are not zeroed (only the motor output
channels are), contradicting the claim. -/
theorem C2_counterexample :
    (Ultimate.parseCommand stC2 (("STOP").toList)).1 = true ∧
    (Ultimate.parseCommand stC2 (("STOP").toList)).2.baseSpeeds = ⟨100, 100, 100, 100⟩ ∧
    (⟨100, 100, 100, 100⟩ : Ultimate.BaseSpeeds) ≠ ⟨0, 0, 0, 0⟩ :=
  ⟨rfl, rfl, by decide⟩

/-- Claim C2 as amended: processing `STOP` (from any prior state) zeroes
all four motor output magnitudes, disables both control modes, and is
idempotent - but the four stored base wheel speeds are left unchanged,
not zeroed. -/
theorem C2_amended (st : Ultimate.S) :
    (Ultimate.parseCommand st (("STOP").toList)).1 = true ∧
    (Ultimate.parseCommand st (("STOP").toList)).2.motors.fl.pwm = 0 ∧
    (Ultimate.parseCommand st (("STOP").toList)).2.motors.fr.pwm = 0 ∧
    (Ultimate.parseCommand st (("STOP").toList)).2.motors.rl.pwm = 0 ∧
    (Ultimate.parseCommand st (("STOP").toList)).2.motors.rr.pwm = 0 ∧
    (Ultimate.parseCommand st (("STOP").toList)).2.balancingEnabled = false ∧
    (Ultimate.parseCommand st (("STOP").toList)).2.headingControlEnabled = false ∧
    (Ultimate.parseCommand st (("STOP").toList)).2.baseSpeeds = st.baseSpeeds ∧
    Ultimate.parseCommand (Ultimate.parseCommand st (("STOP").toList)).2 (("STOP").toList)
      = (true, (Ultimate.parseCommand st (("STOP").toList)).2) :=
  ⟨rfl, rfl, rfl, rfl, rfl, rfl, rfl, rfl, rfl⟩

/-- Claim C3, counterexample: the line `MOVE,abc,1,2,3` carries a
non-numeric token, yet `parseCommand` accepts it (`atoi("abc")` is 0) and
overwrites the stored base speeds 7,7,7,7 with 0,1,2,3 - parsing does not
fail and the base speeds are not left as they were. -/
theorem C3_counterexample :
    (Ultimate.parseCommand stC3 (("MOVE,abc,1,2,3").toList)).1 = true ∧
    (Ultimate.parseCommand stC3 (("MOVE,abc,1,2,3").toList)).2.baseSpeeds = ⟨0, 1, 2, 3⟩ :=
  ⟨rfl, rfl⟩

/-- Claim C3 as amended: for the bare movement form of the extended
controller, a line whose comma-tokens number fewer than four, or whose
first four tokens are not all plain integers, fails to parse, an error is
reported and no motor state changes; but a line whose first four tokens
are valid integers is accepted even when extra tokens follow (only the
token count being short causes a count failure), and the `MOVE` form of
the Ultimate sketch converts tokens with `atoi`, so non-numeric tokens
there yield 0 instead of a failure. -/
theorem C3_amended :
    (∀ (m : Channels) (cmd : List Char), Extended.parseSpeedCommand cmd = none →
       Extended.handleSpeedCommand m cmd = (m, false)) ∧
    Extended.parseSpeedCommand (("abc,1,2,3").toList) = none ∧
    Extended.parseSpeedCommand (("1,2,3").toList) = none ∧
    Extended.parseSpeedCommand (("1,2,3,4,5").toList) = some (1, 2, 3, 4) := by
  refine ⟨fun m cmd h => ?_, rfl, rfl, rfl⟩
  unfold Extended.handleSpeedCommand
  rw [h]

/-- Witness for C3 as amended: the non-numeric line `abc,1,2,3` leaves
the boot motor state untouched and reports failure. -/
theorem C3_witness :
    Extended.handleSpeedCommand chanZero (("abc,1,2,3").toList) = (chanZero, false) :=
  C3_amended.1 chanZero (("abc,1,2,3").toList) (by decide)

/-- Claim C6, counterexample: the line-tracking PID computes its
derivative as `error - previousError` with no division by the cycle time.
With `previousError = 100`, zero integral and the robot centered
(`position = 500`, so `error = 0`), the code produces correction -50,
while the claimed formula `kp * e + ki * clamp(integral) +
kd * (e - lastError) / dt` at the loop period dt = 5 ms = 1/200 s gives
-10000. -/
theorem C6_counterexample :
    (LineAdv.computePID ⟨100, 0⟩ 500).1 = -50 ∧
    specPidCorrection 1 0 (1 / 2) 100 0 100 0 (1 / 200) = -10000 ∧
    ((-50 : ℚ) ≠ -10000) := by
  refine ⟨?_, ?_, by norm_num⟩
  · norm_num [LineAdv.computePID, clampQ]
  · norm_num [specPidCorrection, clampQ]

/-- Claim C6 as amended: the drift-correction PID of the jetbot_imu
sketch does implement the claimed form - correction =
kp * e + ki * clamp(integral accumulated with e * dt) +
kd * (e - lastError) / dt, with the integral clamped to its configured
bound before use, lastError updated after use, dt floored at 1 ms and the
output additionally constrained to 50; the line-tracking PID clamps its
integral to 100 and updates lastError after use but accumulates the raw
error (no dt factor) and leaves its derivative undivided; and the balance
PID of the Ultimate sketch accumulates its integral with no clamp at
all. -/
theorem C6_amended (pc : JetImu.PIDController) (v dtRaw : ℚ)
    (ps : LineAdv.PidState) (pos : ℚ) (st : Ultimate.S) (dt : ℚ) :
    (JetImu.calculatePIDCorrection pc v dtRaw).1
      = clampQ (specPidCorrection pc.kp pc.ki pc.kd pc.maxIntegral
          pc.integral pc.lastError (pc.setpoint - v) (JetImu.effDt dtRaw)) (-50) 50 ∧
    (JetImu.calculatePIDCorrection pc v dtRaw).2.integral
      = clampQ (pc.integral + (pc.setpoint - v) * JetImu.effDt dtRaw)
          (-pc.maxIntegral) pc.maxIntegral ∧
    (JetImu.calculatePIDCorrection pc v dtRaw).2.lastError = pc.setpoint - v ∧
    (LineAdv.computePID ps pos).2.integral
      = clampQ (ps.integral + (500 - pos)) (-100) 100 ∧
    (LineAdv.computePID ps pos).2.previousError = 500 - pos ∧
    (Ultimate.computeBalancingPID st dt).balanceIntegral
      = st.balanceIntegral + (0 - st.pitch) * dt :=
  ⟨rfl, rfl, rfl, rfl, rfl, rfl⟩

/-- Claim C9, counterexample: the balance PID of the Ultimate sketch
divides its derivative by the measured dt with no floor substitution.
From tilt 1 degree (error -1, zero history) the cycle with dt = 0
produces correction -20 while the cycle with the 1 ms floor value
produces -240001/2000; had a floor been substituted before the division
as claimed, the two would coincide.  (In C the dt = 0 cycle divides by
zero outright, producing an infinite float; the `ℚ` model returns 0 for
the division - under neither semantics is a floor substituted.) -/
theorem C9_counterexample :
    (Ultimate.computeBalancingPID stC9 0).balanceCorrection = -20 ∧
    (Ultimate.computeBalancingPID stC9 (1 / 1000)).balanceCorrection = -240001 / 2000 ∧
    ((-20 : ℚ) ≠ -240001 / 2000) := by
  refine ⟨?_, ?_, by norm_num⟩ <;>
    norm_num [Ultimate.computeBalancingPID, stC9, Ultimate.initState]

/-- Claim C9 as amended: only the jetbot_imu drift-correction PID
substitutes a floor - a measured dt below 1 ms is replaced by 1 ms before
the derivative division, so its divisor is always at least 1 ms and never
zero; the balance and heading PIDs of the Ultimate sketch divide by the
raw measured dt with no floor (see the counterexample). -/
theorem C9_amended (pc : JetImu.PIDController) (v dtRaw : ℚ) :
    JetImu.calculatePIDCorrection pc v dtRaw
      = JetImu.calculatePIDCorrection pc v (JetImu.effDt dtRaw) ∧
    1 / 1000 ≤ JetImu.effDt dtRaw ∧ JetImu.effDt dtRaw ≠ 0 := by
  have heff : JetImu.effDt (JetImu.effDt dtRaw) = JetImu.effDt dtRaw := by
    unfold JetImu.effDt
    split_ifs <;> rfl
  refine ⟨?_, ?_, ?_⟩
  · unfold JetImu.calculatePIDCorrection
    rw [heff]
  · unfold JetImu.effDt
    split_ifs with h1 <;> linarith
  · have h : (0 : ℚ) < JetImu.effDt dtRaw := by
      unfold JetImu.effDt
      split_ifs with h1 <;> [norm_num; linarith [not_lt.mp h1]]
    exact ne_of_gt h

/-- Helper for C4: one yaw integration step of the Ultimate sketch keeps
the yaw inside [-180, 180] whenever the gyro word is in the int16 range
(the per-step increment is below 2.6 degrees, far less than the 360 the
single conditional wrap can absorb). -/
theorem yawStep_bounds (y : ℚ) (g : ℤ) (hy1 : -180 ≤ y) (hy2 : y ≤ 180)
    (hg1 : -32768 ≤ g) (hg2 : g ≤ 32767) :
    -180 ≤ Ultimate.yawStep y g ∧ Ultimate.yawStep y g ≤ 180 := by
  have hgq1 : (-32768 : ℚ) ≤ (g : ℚ) := by exact_mod_cast hg1
  have hgq2 : ((g : ℚ)) ≤ 32767 := by exact_mod_cast hg2
  simp only [Ultimate.yawStep]
  split_ifs with h1 h2 h3 <;> constructor <;> linarith

/-- Helper for C4: folding yaw integration steps over any list of
int16-range gyro words keeps the yaw inside [-180, 180]. -/
theorem yawFold_bounds (gs : List ℤ) : ∀ y : ℚ, -180 ≤ y → y ≤ 180 →
    (∀ g ∈ gs, -32768 ≤ g ∧ g ≤ 32767) →
    -180 ≤ List.foldl Ultimate.yawStep y gs ∧
      List.foldl Ultimate.yawStep y gs ≤ 180 := by
  induction gs with
  | nil => intro y h1 h2 _; exact ⟨h1, h2⟩
  | cons g gs ih =>
    intro y h1 h2 hg
    have hgh := hg g (List.mem_cons_self g gs)
    have hb := yawStep_bounds y g h1 h2 hgh.1 hgh.2
    simpa using ih (Ultimate.yawStep y g) hb.1 hb.2
      (fun x hx => hg x (List.mem_cons_of_mem g hx))

/-- Helper for C4: with the constant gyro word -32750 each step subtracts
exactly 2.5 degrees and, while the running yaw stays in [-180, 0], the
wrap conditionals never fire, so k such steps subtract 2.5 k degrees. -/
theorem yawDescent : ∀ (k : ℕ) (y : ℚ), -180 + (5 / 2) * k ≤ y → y ≤ 0 →
    List.foldl Ultimate.yawStep y (List.replicate k (-32750 : ℤ))
      = y - (5 / 2) * k := by
  intro k
  induction k with
  | zero => intro y _ _; norm_num
  | succ n ih =>
    intro y hlo hhi
    have hn0 : (0 : ℚ) ≤ (n : ℚ) := Nat.cast_nonneg n
    have hlo2 : -180 + (5 / 2) * ((n : ℚ) + 1) ≤ y := by push_cast at hlo; linarith
    rw [List.replicate_succ, List.foldl_cons]
    have hstep : Ultimate.yawStep y (-32750) = y - 5 / 2 := by
      simp only [Ultimate.yawStep]
      have e1 : y + ((-32750 : ℤ) : ℚ) / 131 * (1 / 100) = y - 5 / 2 := by
        push_cast; ring
      rw [e1, if_neg (show ¬ y - 5 / 2 > 180 by linarith),
        if_neg (show ¬ y - 5 / 2 < -180 by linarith)]
    rw [hstep, ih (y - 5 / 2) (by linarith) (by linarith)]
    push_cast; ring

/-- Claim C4, counterexample: integrating the constant int16 gyro word
-32750 (a -2.5 degree step) for 72 cycles from the boot yaw 0 reports a
yaw of exactly -180, which is outside the claimed interval
(-180, 180]. -/
theorem C4_counterexample :
    List.foldl Ultimate.yawStep 0 (List.replicate 72 (-32750 : ℤ)) = -180 ∧
    ¬ (-180 < List.foldl Ultimate.yawStep 0 (List.replicate 72 (-32750 : ℤ))) := by
  have h := yawDescent 72 0 (by norm_num) (by norm_num)
  refine ⟨?_, ?_⟩ <;> rw [h] <;> norm_num

/-- Claim C4 as amended: after every cycle the integrated yaw of the
Ultimate sketch lies in the closed interval [-180, 180] for any sequence
of int16 gyro words - the boundary -180 itself is reachable, so the
claimed half-open interval (-180, 180] must widen to include it.  (The
sketch integrates yaw with the fixed internal step dt_imu = 0.01; the
measured cycle dt does not enter the yaw update.) -/
theorem C4_amended (gs : List ℤ) (h : ∀ g ∈ gs, -32768 ≤ g ∧ g ≤ 32767) :
    -180 ≤ List.foldl Ultimate.yawStep 0 gs ∧
      List.foldl Ultimate.yawStep 0 gs ≤ 180 :=
  yawFold_bounds gs 0 (by norm_num) (by norm_num) h

/-- Witness for C4 as amended, at the one-element gyro sequence 13100 (a
+100 degree/s rate for one internal step). -/
theorem C4_witness :
    -180 ≤ List.foldl Ultimate.yawStep 0 [(13100 : ℤ)] ∧
      List.foldl Ultimate.yawStep 0 [(13100 : ℤ)] ≤ 180 :=
  C4_amended [13100] (by
    intro g hg
    simp only [List.mem_singleton] at hg
    subst hg
    exact ⟨by norm_num, by norm_num⟩)

/-- Helper for C8: feeding non-terminator bytes that exactly fill and
then overflow the 63-byte command buffer leaves the state unchanged
except that the buffer is reset to empty and one overflow error has been
reported; nothing is dispatched. -/
theorem procNoTerm (bs : List Char) : ∀ st : Ultimate.S,
    (∀ b ∈ bs, b ≠ '\n' ∧ b ≠ '\r') →
    st.cmdBuffer.length + bs.length = 64 → st.cmdBuffer.length ≤ 63 →
    Ultimate.processSerialCommands st bs
      = { st with cmdBuffer := [], errorCount := st.errorCount + 1 } := by
  induction bs with
  | nil =>
    intro st _ hlen hle
    exfalso
    simp only [List.length_nil] at hlen
    omega
  | cons b rest ih =>
    intro st hnt hlen hle
    have hb := hnt b (List.mem_cons_self b rest)
    simp only [List.length_cons] at hlen
    have hterm : ¬ (b = '\n' ∨ b = '\r') := by
      simp [hb.1, hb.2]
    by_cases hlt : st.cmdBuffer.length < 63
    · have hstep : Ultimate.procChar st b
          = { st with cmdBuffer := st.cmdBuffer ++ [b] } := by
        unfold Ultimate.procChar
        rw [if_neg hterm, if_pos hlt]
      have hrec := ih { st with cmdBuffer := st.cmdBuffer ++ [b] }
        (fun x hx => hnt x (List.mem_cons_of_mem b hx))
        (by simp; omega) (by simp; omega)
      show List.foldl Ultimate.procChar st (b :: rest)
          = { st with cmdBuffer := [], errorCount := st.errorCount + 1 }
      rw [List.foldl_cons, hstep]
      exact hrec
    · have h63 : st.cmdBuffer.length = 63 := by omega
      have hrest : rest = [] := by
        have : rest.length = 0 := by omega
        exact List.length_eq_zero.mp this
      have hstep : Ultimate.procChar st b
          = { st with errorCount := st.errorCount + 1, cmdBuffer := [] } := by
        unfold Ultimate.procChar
        rw [if_neg hterm, if_neg hlt]
      show List.foldl Ultimate.procChar st (b :: rest)
          = { st with cmdBuffer := [], errorCount := st.errorCount + 1 }
      rw [List.foldl_cons, hstep, hrest, List.foldl_nil]

set_option maxRecDepth 8000 in
/-- Claim C8, counterexample: neither cited serial reader discards an
overlong partial line the way the claim says.  In the Ultimate
controller the overflow is reported and the buffer reset, but the tail
`STOP` of the very same line then accumulates in the emptied buffer and
is dispatched as a command at the terminator - balancing observably
drops from enabled to disabled.  In the advanced line follower, 64
non-terminator bytes leave the buffer holding the retained 63-byte
prefix: it is not reset to empty, and no error is reported (that sketch
has no overflow branch at all). -/
theorem C8_counterexample :
    (Ultimate.processSerialCommands stC8 inputC8).balancingEnabled = false ∧
    (Ultimate.processSerialCommands stC8 inputC8).errorCount = 1 ∧
    stC8.balancingEnabled = true ∧
    (LineAdv.processSerialInput lineBoot (List.replicate 64 'X')).cmdBuffer
      = List.replicate 63 'X' ∧
    (LineAdv.processSerialInput lineBoot (List.replicate 64 'X')).cmdBuffer ≠ [] := by
  refine ⟨?_, ?_, rfl, ?_, ?_⟩ <;> decide

/-- Helper for C8: the advanced line follower's serial reader, fed
non-terminator bytes from any starting buffer, appends them only until
the buffer holds 63 bytes and silently drops the rest - no error exists
in that sketch and the buffer is never reset. -/
theorem lineFill (bs : List Char) : ∀ (d : ℤ) (buf : List Char),
    (∀ b ∈ bs, b ≠ '\n' ∧ b ≠ '\r') →
    LineAdv.processSerialInput ⟨d, buf⟩ bs
      = ⟨d, buf ++ bs.take (63 - buf.length)⟩ := by
  induction bs with
  | nil => intro d buf _; simp [LineAdv.processSerialInput]
  | cons b rest ih =>
    intro d buf hnt
    have hb := hnt b (List.mem_cons_self b rest)
    have hterm : ¬ (b = '\n' ∨ b = '\r') := by simp [hb.1, hb.2]
    have hrest := fun x hx => hnt x (List.mem_cons_of_mem b hx)
    have hcons : LineAdv.processSerialInput ⟨d, buf⟩ (b :: rest)
        = LineAdv.processSerialInput (LineAdv.inputChar ⟨d, buf⟩ b) rest := rfl
    rw [hcons]
    by_cases hlt : buf.length < 63
    · have hstep : LineAdv.inputChar ⟨d, buf⟩ b = ⟨d, buf ++ [b]⟩ := by
        unfold LineAdv.inputChar
        rw [if_neg hterm, if_pos hlt]
      rw [hstep, ih d (buf ++ [b]) hrest]
      have h1 : 63 - buf.length = (63 - (buf ++ [b]).length) + 1 := by
        simp only [List.length_append, List.length_cons, List.length_nil]
        omega
      rw [h1, List.take_succ_cons]
      simp [List.append_assoc]
    · have hstep : LineAdv.inputChar ⟨d, buf⟩ b = ⟨d, buf⟩ := by
        unfold LineAdv.inputChar
        rw [if_neg hterm, if_neg hlt]
      have h0 : 63 - buf.length = 0 := by omega
      rw [hstep, ih d buf hrest, h0]
      simp

/-- Claim C8 as amended: the two cited serial readers handle overflow
differently, and neither discards the whole partial line.  In the
Ultimate controller, the byte that overflows the full 63-byte buffer is
discarded, an overflow error is reported and the buffer is reset to
empty with nothing dispatched and no other state change - but bytes of
the same line arriving after the reset accumulate afresh, so a suffix
of the overlong line can still be dispatched at its terminator.  In the
advanced line follower there is no overflow branch at all: overflowing
bytes are silently dropped with no error report and no reset, the buffer
keeps the first 63 bytes of the overlong line, and that truncated prefix
is dispatched to `handleCommand` when the terminator arrives. -/
theorem C8_amended :
    (∀ (st : Ultimate.S) (bs : List Char), st.cmdBuffer = [] → bs.length = 64 →
       (∀ b ∈ bs, b ≠ '\n' ∧ b ≠ '\r') →
       Ultimate.processSerialCommands st bs
         = { st with cmdBuffer := [], errorCount := st.errorCount + 1 }) ∧
    (∀ (d : ℤ) (bs : List Char), 64 ≤ bs.length →
       (∀ b ∈ bs, b ≠ '\n' ∧ b ≠ '\r') →
       LineAdv.processSerialInput ⟨d, []⟩ bs = ⟨d, bs.take 63⟩ ∧
       LineAdv.processSerialInput ⟨d, []⟩ (bs ++ ['\n'])
         = { LineAdv.handleCommand ⟨d, bs.take 63⟩ (bs.take 63) with
             cmdBuffer := [] }) := by
  constructor
  · intro st bs hbuf hlen hnt
    exact procNoTerm bs st hnt (by simp [hbuf, hlen]) (by simp [hbuf])
  · intro d bs hlen hnt
    have hfill : LineAdv.processSerialInput ⟨d, []⟩ bs = ⟨d, bs.take 63⟩ := by
      have h := lineFill bs d [] hnt
      simpa using h
    refine ⟨hfill, ?_⟩
    have happ : LineAdv.processSerialInput ⟨d, []⟩ (bs ++ ['\n'])
        = LineAdv.processSerialInput (LineAdv.processSerialInput ⟨d, []⟩ bs) ['\n'] := by
      simp [LineAdv.processSerialInput]
    have hsingle : LineAdv.processSerialInput ⟨d, bs.take 63⟩ ['\n']
        = LineAdv.inputChar ⟨d, bs.take 63⟩ '\n' := rfl
    rw [happ, hfill, hsingle]
    have hlen63 : (bs.take 63).length = 63 := by
      rw [List.length_take]
      omega
    have hne : ¬ ((bs.take 63).isEmpty = true) := by
      rw [List.isEmpty_iff]
      intro h
      rw [h] at hlen63
      simp at hlen63
    unfold LineAdv.inputChar
    rw [if_pos (Or.inl rfl), if_neg hne]

/-- Witness for C8 as amended: 64 filler bytes overflow both readers -
the Ultimate controller reports one error and resets its buffer, while
the advanced line follower keeps the 63-byte prefix and dispatches that
prefix once the terminator arrives. -/
theorem C8_witness :
    (Ultimate.processSerialCommands Ultimate.initState (List.replicate 64 'a')
      = { Ultimate.initState with
          cmdBuffer := []
          errorCount := Ultimate.initState.errorCount + 1 }) ∧
    (LineAdv.processSerialInput ⟨0, []⟩ (List.replicate 64 'a')
        = ⟨0, (List.replicate 64 'a').take 63⟩ ∧
     LineAdv.processSerialInput ⟨0, []⟩ (List.replicate 64 'a' ++ ['\n'])
        = { LineAdv.handleCommand ⟨0, (List.replicate 64 'a').take 63⟩
              ((List.replicate 64 'a').take 63) with cmdBuffer := [] }) :=
  ⟨C8_amended.1 Ultimate.initState (List.replicate 64 'a') rfl (by simp)
    (by
      intro b hb
      simp only [List.mem_replicate] at hb
      rw [hb.2]
      exact ⟨by decide, by decide⟩),
   C8_amended.2 0 (List.replicate 64 'a') (by simp)
    (by
      intro b hb
      simp only [List.mem_replicate] at hb
      rw [hb.2]
      exact ⟨by decide, by decide⟩)⟩

/-- Helper for C1: when balancing is enabled and the freshly fused tilt
exceeds the 30 degree tip-over threshold, the cycle ends right after the
balance PID with `stopMotors` (all four channels direction HIGH,
magnitude 0) - command processing, heading control, odometry and mixing
are all skipped, and no flag changes. -/
theorem loopStep_tripped (st : Ultimate.S) (dtMs : ℕ) (imu : Ultimate.ImuSample)
    (input : List Char) (hb : st.balancingEnabled = true)
    (ht : 30 < |(Ultimate.updateIMU st imu).pitch|) :
    Ultimate.loopStep st dtMs imu input
      = { Ultimate.computeBalancingPID (Ultimate.updateIMU st imu) ((dtMs : ℚ) / 1000) with
          motors := ⟨⟨true, 0⟩, ⟨true, 0⟩, ⟨true, 0⟩, ⟨true, 0⟩⟩ } := by
  simp only [Ultimate.loopStep]
  split_ifs with h1 h2
  · rfl
  · exact absurd ht h2
  · exact absurd hb h1

/-- Claim C1, counterexample: two cycles whose fused tilt is 50 degrees
(above the 30 degree threshold).  With balancing disabled and base speeds
100 (state `stC1a`) the tip-over check never runs and the cycle ends with
wheel magnitude 100, not 0; with balancing and heading-hold enabled
(state `stC1b`) the motors do stop, but the heading-hold flag is still
set at the end of the cycle - so neither "all four wheel magnitudes are
0" nor "both mode flags are cleared" holds for every such cycle. -/
theorem C1_counterexample :
    (Ultimate.loopStep stC1a 10 imuC1 []).pitch = 50 ∧
    (Ultimate.loopStep stC1a 10 imuC1 []).motors.fl.pwm = 100 ∧
    (Ultimate.loopStep stC1b 10 imuC1 []).pitch = 50 ∧
    (Ultimate.loopStep stC1b 10 imuC1 []).motors.fl.pwm = 0 ∧
    (Ultimate.loopStep stC1b 10 imuC1 []).balancingEnabled = true ∧
    (Ultimate.loopStep stC1b 10 imuC1 []).headingControlEnabled = true ∧
    (30 : ℚ) < |(50 : ℚ)| := by
  refine ⟨?_, ?_, ?_, ?_, ?_, ?_, by norm_num⟩ <;>
    norm_num [Ultimate.loopStep, Ultimate.updateIMU, Ultimate.loopTail,
      Ultimate.computeBalancingPID, Ultimate.computeHeadingPID,
      Ultimate.updateOdometry, Ultimate.processSerialCommands,
      Ultimate.mixAndActuate, Ultimate.setAllMotors, Ultimate.setMotor,
      Ultimate.stopMotors, Ultimate.yawStep, cTrunc, clampZ,
      stC1a, stC1b, imuC1, Ultimate.initState]

/-- Claim C1 as amended: for every cycle in which balancing mode is
enabled and the magnitude of the fused tilt computed that cycle exceeds
the 30 degree tip-over threshold, all four wheel magnitudes are 0 at the
end of the cycle; the balancing and heading-hold flags, however, are left
unchanged rather than cleared, and when balancing is disabled no tip-over
check takes place at all (see the counterexample). -/
theorem C1_amended (st : Ultimate.S) (dtMs : ℕ) (imu : Ultimate.ImuSample)
    (input : List Char) (hb : st.balancingEnabled = true)
    (ht : 30 < |(Ultimate.updateIMU st imu).pitch|) :
    (Ultimate.loopStep st dtMs imu input).motors.fl.pwm = 0 ∧
    (Ultimate.loopStep st dtMs imu input).motors.fr.pwm = 0 ∧
    (Ultimate.loopStep st dtMs imu input).motors.rl.pwm = 0 ∧
    (Ultimate.loopStep st dtMs imu input).motors.rr.pwm = 0 ∧
    (Ultimate.loopStep st dtMs imu input).balancingEnabled = st.balancingEnabled ∧
    (Ultimate.loopStep st dtMs imu input).headingControlEnabled = st.headingControlEnabled := by
  rw [loopStep_tripped st dtMs imu input hb ht]
  exact ⟨rfl, rfl, rfl, rfl, rfl, rfl⟩

/-- Witness for C1 as amended, at the tilted state `stC1b` with both
modes enabled. -/
theorem C1_witness :
    (Ultimate.loopStep stC1b 10 imuC1 []).motors.fl.pwm = 0 ∧
    (Ultimate.loopStep stC1b 10 imuC1 []).motors.fr.pwm = 0 ∧
    (Ultimate.loopStep stC1b 10 imuC1 []).motors.rl.pwm = 0 ∧
    (Ultimate.loopStep stC1b 10 imuC1 []).motors.rr.pwm = 0 ∧
    (Ultimate.loopStep stC1b 10 imuC1 []).balancingEnabled = stC1b.balancingEnabled ∧
    (Ultimate.loopStep stC1b 10 imuC1 []).headingControlEnabled = stC1b.headingControlEnabled :=
  C1_amended stC1b 10 imuC1 [] rfl
    (by norm_num [Ultimate.updateIMU, stC1b, imuC1, Ultimate.initState])
